import Mathlib

/-!
Verification development for the flowabot osu! difficulty and play-statistics
engine (`osu_utils.py`).  The Python source is shallowly embedded below:

* floats are modelled as exact rationals (`ℚ`); the two transcendental
  operations the strain engine uses, `**` (float power) and `math.sqrt`, are
  taken as opaque parameters `fpow : ℚ → ℚ → ℚ` and `fsqrt : ℚ → ℚ`, since the
  claims under study are structural and do not depend on their values;
* the external oppadc collaborator (`beatmap.getStats`, `beatmap.getPP`) is
  modelled as opaque input data (`OppaStats`) respectively as the record of
  arguments the code passes to it (`PPArgs`);
* Python `list.remove` / in-place mutation is modelled with explicit state
  passing: `sanitize_mods` returns both its result and the post-call contents
  of its argument;
* the module-level regex `MODS_RE = ^(NF|EZ|...)+$` (with `regex` captures of
  the repeated group) is modelled by an ordered backtracking tokenizer over
  the same alternative list, `tokenizeFuel`;
* `Log.error` on the invalid-mod-string path is modelled as a boolean
  "warning was reported" component of the result.
-/

set_option maxRecDepth 10000

namespace Flowabot

/-! ### OsuConsts -/

/-- `OsuConsts.MODS`: the 30-entry name-to-bitmask registry, in source order.
`MODS_INT` is the inverse dictionary; its iteration order is this same order. -/
def MODS : List (String × Nat) :=
  [("NF", 1), ("EZ", 2), ("TD", 4), ("HD", 8), ("HR", 16), ("SD", 32),
   ("DT", 64), ("RX", 128), ("HT", 256), ("NC", 512), ("FL", 1024),
   ("AT", 2048), ("SO", 4096), ("AP", 8192), ("PF", 16384), ("4K", 32768),
   ("5K", 65536), ("6K", 131072), ("7K", 262144), ("8K", 524288),
   ("FI", 1048576), ("RD", 2097152), ("LM", 4194304), ("TR", 8388608),
   ("9K", 16777216), ("10K", 33554432), ("1K", 67108864), ("3K", 134217728),
   ("2K", 268435456), ("V2", 536870912)]

/-- Bit value of a registry mod name (`OsuConsts.MODS.value[s]`). -/
def modValue (s : String) : Nat := ((MODS.lookup s).getD 0)

/-- `OsuConsts.DIFF_MODS`: the 8 mods that affect numeric difficulty. -/
def DIFF_MODS : List String := ["HR", "EZ", "DT", "HT", "NC", "FL", "HD", "NF"]

def AR_MS_STEP1 : ℚ := 120
def AR_MS_STEP2 : ℚ := 150
def AR0_MS : ℚ := 1800
def AR5_MS : ℚ := 1200
def AR10_MS : ℚ := 450
def OD_MS_STEP : ℚ := 6
def OD0_MS : ℚ := 159 / 2
def OD10_MS : ℚ := 39 / 2
def DT_SPD : ℚ := 3 / 2
def HT_SPD : ℚ := 3 / 4
def HR_OD : ℚ := 7 / 5
def EZ_OD : ℚ := 1 / 2
def STRAIN_STEP : ℚ := 400
/-- `OsuConsts.DECAY_BASE = [0.3, 0.15]`: index 0 is the speed dimension,
index 1 the aim dimension (see `get_strains`). -/
def DECAY_BASE : Fin 2 → ℚ := ![3 / 10, 3 / 20]
def STAR_SCALING_FACTOR : ℚ := 675 / 10000
def EXTREME_SCALING_FACTOR : ℚ := 1 / 2

/-! ### Modifier model -/

/-- `speed_multiplier(mods)` from the source: 1.5 for DT or NC, 0.75 for HT,
else 1. -/
def speed_multiplier (mods : List String) : ℚ :=
  if "DT" ∈ mods ∨ "NC" ∈ mods then DT_SPD
  else if "HT" ∈ mods then HT_SPD
  else 1

/-- `CalculateMods.od(raw_od)`: returns the pair (effective od, od window in
ms).  Note the source computes its own local `speed` here, checking only
`"DT" in self.mods` and `"HT" in self.mods` — it does not consult
`speed_multiplier`, so NC is ignored by this method. -/
def CalculateMods_od (mods : List String) (raw_od : ℚ) : ℚ × ℚ :=
  let od_multiplier : ℚ := if "HR" ∈ mods then HR_OD else if "EZ" ∈ mods then EZ_OD else 1
  let speed : ℚ := if "DT" ∈ mods then DT_SPD else if "HT" ∈ mods then HT_SPD else 1
  let od := raw_od * od_multiplier
  let odms : ℚ := OD0_MS - (⌈OD_MS_STEP * od⌉ : ℤ)
  let odms := min (max OD10_MS odms) OD0_MS
  let odms := odms / speed
  let od := (OD0_MS - odms) / OD_MS_STEP
  (od, odms)

/-- `sanitize_mods(mods)`.  The Python function mutates its argument in place
(`mods.remove(...)`) and returns the same object; we model this with explicit
state passing: the first component is the returned value, the second is the
contents of the caller's list after the call.  `list.remove` drops the first
occurrence, i.e. `List.erase`. -/
def sanitize_mods (mods : List String) : List String × List String :=
  let m1 := if "NC" ∈ mods ∧ "DT" ∈ mods then mods.erase "DT" else mods
  let m2 := if "PF" ∈ m1 ∧ "SD" ∈ m1 then m1.erase "SD" else m1
  (m2, m2)

/-- One backtracking step of the anchored regex `^(NF|EZ|...)+$`: try each
alternative of `OsuConsts.MODS` in order; an alternative fits if it is a
prefix of the remaining input and the rest of the input can be tokenized in
turn.  The fuel is an upper bound on the number of tokens; every registry code
is non-empty, so `cs.length` fuel always suffices. -/
def tokenizeFuel : ℕ → List Char → Option (List String)
  | _, [] => some []
  | 0, _ :: _ => none
  | fuel + 1, c :: rest =>
    (MODS.map Prod.fst).findSome? fun code =>
      if code.toList.isPrefixOf (c :: rest) then
        (tokenizeFuel fuel ((c :: rest).drop code.toList.length)).map (fun ts => code :: ts)
      else none

/-- `MODS_RE.match(s)` with `.captures(1)`: `some toks` is a successful full
match whose repeated-group captures are `toks`; the `+` quantifier requires at
least one token, so the empty string does not match. -/
def MODS_RE_match (s : String) : Option (List String) :=
  if s.toList = [] then none else tokenizeFuel s.toList.length s.toList

/-- Python's `str.upper()` (character-wise ASCII uppercasing). -/
def str_upper (s : String) : String := ⟨s.data.map Char.toUpper⟩

/-- `mods.replace("+", "").upper()`: drop every `'+'`, then uppercase. -/
def strip_plus_upper (s : String) : String :=
  str_upper ⟨s.data.filter (fun c => c ≠ '+')⟩

/-- `parse_mods_string(mods)`.  Second component: whether `Log.error` was
called (the invalid-string warning).  `list(set(matches))` deduplicates the
captures; the arbitrary Python set order is modelled with `List.dedup` (all
downstream consumers are order-insensitive). -/
def parse_mods_string (mods : String) : List String × Bool :=
  if mods = "" ∨ mods = "nomod" then ([], false)
  else
    let m := strip_plus_upper mods
    match MODS_RE_match m with
    | none => ([], true)
    | some ms => (ms.dedup, false)

/-- `parse_mods_int(mods)`: decode every set bit of the bitmask, iterating the
`MODS_INT` registry in its insertion order. -/
def parse_mods_int (m : Nat) : List String :=
  if m = 0 then []
  else MODS.filterMap (fun p => if p.2 &&& m ≠ 0 then some p.1 else none)

/-- The canonical mod set built inside `mod_int`: `set(mod_list)`, then
`add("DT")` whenever NC is present, then keep only `DIFF_MODS` members. -/
def modIntList (mod_list : List String) : List String :=
  let s1 := mod_list.dedup
  let s2 := if "NC" ∈ s1 then s1.insert "DT" else s1
  s2.filter (fun x => decide (x ∈ DIFF_MODS))

/-- `mod_int(mod_list)` (list branch): sum of the bit values of the canonical
set.  Python sums over a set; the sum is order-independent. -/
def mod_int (mod_list : List String) : Nat :=
  ((modIntList mod_list).map modValue).sum

/-! ### Strain timeline engine -/

/-- A parsed hit object as the strain engine sees it: a start time and the two
precomputed strain contributions `strains[0]` (speed) and `strains[1]` (aim),
supplied by the external oppadc parser. -/
structure HitObject where
  starttime : ℚ
  strains : Fin 2 → ℚ

/-- The body of the `while hit_objects[i].starttime > interval_emd` loop of
`calculate_strains`, run a fixed number of times: each iteration appends the
open bucket's max to the output, then reopens with the previous object's
strain decayed from the just-closed bucket's end boundary
(`DECAY_BASE[mode_type] ** (interval_emd - prev.starttime) / 1000`, Python
precedence: exponentiation binds before the division), or 0 when there is no
previous object (`i == 0`); then advances the boundary by one step.  Returns
(appended strain list, new running max, new boundary). -/
def closeBuckets (fpow : ℚ → ℚ → ℚ) (mode_type : Fin 2) (prev : Option HitObject)
    (step : ℚ) : ℕ → List ℚ → ℚ → ℚ → List ℚ × ℚ × ℚ
  | 0, ss, ms, ie => (ss, ms, ie)
  | n + 1, ss, ms, ie =>
    let ss := ss ++ [ms]
    let ms :=
      match prev with
      | some p => p.strains mode_type * (fpow (DECAY_BASE mode_type) (ie - p.starttime) / 1000)
      | none => 0
    closeBuckets fpow mode_type prev step n ss ms (ie + step)

/-- Number of iterations the `while t > interval_emd` loop performs before the
boundary passes `t` (each iteration adds `step`); for `step > 0` this is
exactly `⌈(t - ie) / step⌉`, and 0 when `t ≤ ie`. -/
def iterCount (t ie step : ℚ) : ℕ := (⌈(t - ie) / step⌉).toNat

/-- The `for i, _ in enumerate(hit_objects)` walk of `calculate_strains`:
close buckets until the current object's time fits, then fold the object's own
strain into the running max.  `prev` is `hit_objects[i-1]` (`none` for
`i == 0`). -/
def strainLoop (fpow : ℚ → ℚ → ℚ) (mt : Fin 2) (step : ℚ) :
    List HitObject → Option HitObject → List ℚ → ℚ → ℚ → List ℚ × ℚ
  | [], _, ss, ms, _ => (ss, ms)
  | o :: rest, prev, ss, ms, ie =>
    let r := closeBuckets fpow mt prev step (iterCount o.starttime ie step) ss ms ie
    strainLoop fpow mt step rest (some o) r.1 (max r.2.1 (o.strains mt)) r.2.2

/-- `calculate_strains(mode_type, hit_objects, speed_multiplier)`.  The source
raises `IndexError` on an empty hit-object list (callers guarantee
non-emptiness via `BadMapFile`); the `[]` branch here is dead code.  After the
walk the final open bucket is appended and every raw bucket value `i` is
rescaled to `sqrt(i * 9.999) * STAR_SCALING_FACTOR`. -/
def calculate_strains (fpow : ℚ → ℚ → ℚ) (fsqrt : ℚ → ℚ) (mode_type : Fin 2)
    (hit_objects : List HitObject) (speedMul : ℚ) : List ℚ :=
  match hit_objects with
  | [] => []
  | h0 :: _ =>
    let strain_step := STRAIN_STEP * speedMul
    let interval_emd : ℚ := (⌈h0.starttime / strain_step⌉ : ℤ) * strain_step
    let r := strainLoop fpow mode_type strain_step hit_objects none [] 0 interval_emd
    let strains := r.1 ++ [r.2]
    strains.map (fun i => fsqrt (i * (9999 / 1000)) * STAR_SCALING_FACTOR)

/-- The star ratings the external oppadc collaborator
(`beatmap.getStats(mod_int(mods))`) reports; opaque to this engine. -/
structure OppaStats where
  aim : ℚ
  speed : ℚ
  total : ℚ

/-- The dict `get_strains` returns. -/
structure StrainsResult where
  strains : List ℚ
  max_strain : ℚ
  max_strain_time : ℚ
  max_strain_time_real : ℚ
  total : ℚ

/-- The `for i in chosen_strains` peak-search loop of `get_strains`, verbatim:
it folds over the strain VALUES, and on a new maximum records
`i * OsuConsts.STRAIN_STEP.value + strain_offset` — `i` being the strain
value itself (not an index) and `STRAIN_STEP` the unscaled base step. -/
def peakFold (chosen_strains : List ℚ) (strain_offset : ℚ) : ℚ × ℚ :=
  chosen_strains.foldl
    (fun acc i => if i > acc.1 then (i, i * STRAIN_STEP + strain_offset) else acc)
    (0, strain_offset)

/-- `get_strains(beatmap, mods, mode)`.  `stars` is the opaque result of the
external `beatmap.getStats(mod_int(mods))` call.  The source indexes
`hitobjects[0]`; the `[]` branch is dead code.  The combined sequence is
`aim[i] + speed[i] + |speed[i] - aim[i]| * EXTREME_SCALING_FACTOR` (the two
per-dimension lists have equal length, so the index loop is a zipWith). -/
def get_strains (fpow : ℚ → ℚ → ℚ) (fsqrt : ℚ → ℚ) (stars : OppaStats)
    (hitobjects : List HitObject) (mods : List String) (mode : String) : StrainsResult :=
  match hitobjects with
  | [] => ⟨[], 0, 0, 0, 0⟩
  | h0 :: _ =>
    let speed := speed_multiplier mods
    let aim_strains := calculate_strains fpow fsqrt 1 hitobjects speed
    let speed_strains := calculate_strains fpow fsqrt 0 hitobjects speed
    let strain_step := STRAIN_STEP * speed
    let strain_offset : ℚ := (⌊h0.starttime / strain_step⌋ : ℤ) * strain_step - strain_step
    let star_strains := List.zipWith
      (fun a s => a + s + |s - a| * EXTREME_SCALING_FACTOR) aim_strains speed_strains
    let chosen_strains :=
      if mode = "aim" then aim_strains
      else if mode = "speed" then speed_strains
      else star_strains
    let total :=
      if mode = "aim" then stars.aim
      else if mode = "speed" then stars.speed
      else stars.total
    let peak := peakFold chosen_strains strain_offset
    ⟨chosen_strains, peak.1, peak.2, peak.2 * speed, total⟩

/-! ### Play statistics aggregator (`stat_play`) -/

/-- The fields of a `Play` that `stat_play`'s computations read. -/
structure PlayData where
  count300 : ℕ
  count100 : ℕ
  count50 : ℕ
  countmiss : ℕ
  maxcombo : ℕ
  enabled_mods : List String
  rank : String

/-- The rank letters the osu! API produces (enumerated in `get_rank_emoji`). -/
def RANKS : List String := ["XH", "X", "SH", "S", "A", "B", "C", "D", "F"]

/-- The completion fraction computed at the top of `stat_play`:
`1` unless `play.rank.upper() == "F"`, in which case the judged hit count over
the beatmap's total hit-object count. -/
def stat_play_completion (rank : String) (count300 count100 count50 countmiss : ℕ)
    (hit_objects : ℕ) : ℚ :=
  if str_upper rank = "F" then
    ((count300 + count100 + count50 + countmiss : ℕ) : ℚ) / (hit_objects : ℚ)
  else 1

/-- The argument record of one `beatmap.getPP(...)` call (external oppadc
collaborator).  `none` means the keyword argument was not passed at the call
site. -/
structure PPArgs where
  mods : ℕ
  combo : Option ℕ
  misses : Option ℕ
  n300 : Option ℕ
  n100 : Option ℕ
  n50 : Option ℕ

/-- The first `getPP` call of `stat_play` (actual play):
`getPP(Mods=mod_int(mods), combo=maxcombo, misses=countmiss, n300=count300,
n100=count100, n50=count50)`. -/
def stat_play_pp_args (p : PlayData) : PPArgs :=
  { mods := mod_int p.enabled_mods, combo := some p.maxcombo, misses := some p.countmiss,
    n300 := some p.count300, n100 := some p.count100, n50 := some p.count50 }

/-- The second `getPP` call of `stat_play` (hypothetical full combo):
`getPP(Mods=mod_int(mods), n100=count100, n50=count50,
n300=count300 + countmiss)` — `combo` and `misses` are not passed. -/
def stat_play_pp_fc_args (p : PlayData) : PPArgs :=
  { mods := mod_int p.enabled_mods, combo := none, misses := none,
    n300 := some (p.count300 + p.countmiss), n100 := some p.count100,
    n50 := some p.count50 }

/-! ### get_top / get_recent index selection -/

/-- The 1-based position `get_top` ends up reading from the fetched list:
`index = min(max(index, 1), 100)`, then `index = len(response)` when the list
is shorter. -/
def get_top_resolved (index : ℤ) (len : ℕ) : ℕ :=
  let idx := min (max index 1) 100
  let idx := if (len : ℤ) < idx then (len : ℤ) else idx
  idx.toNat

/-- `get_top`'s final `response[index - 1]` access. -/
def get_top_select {α : Type} (index : ℤ) (plays : List α) : Option α :=
  plays.get? (get_top_resolved index plays.length - 1)

/-- The 1-based position `get_recent` reads: clamp bound is 50. -/
def get_recent_resolved (index : ℤ) (len : ℕ) : ℕ :=
  let idx := min (max index 1) 50
  let idx := if (len : ℤ) < idx then (len : ℤ) else idx
  idx.toNat

/-- `get_recent`'s final `response[index - 1]` access. -/
def get_recent_select {α : Type} (index : ℤ) (plays : List α) : Option α :=
  plays.get? (get_recent_resolved index plays.length - 1)

/-! ### Concrete instantiations used by closed evaluations -/

/-- A concrete stand-in for float `**` (the claims under evaluation do not
depend on its value). -/
def onePow : ℚ → ℚ → ℚ := fun _ _ => 1

/-- A concrete stand-in for `math.sqrt` (the inputs in the closed evaluations
make its value irrelevant or are used symbolically). -/
def idSqrt : ℚ → ℚ := fun q => q

/-- Concrete play for the C5 counterexample: 40×300, 5×100, 2×50, 3 misses. -/
def p5 : PlayData :=
  { count300 := 40, count100 := 5, count50 := 2, countmiss := 3,
    maxcombo := 300, enabled_mods := [], rank := "S" }

/-! ## Theorems -/

/-- When a bucket-closing run of length `n + 1` starts with a previous object
`p`, the strain opening the last bucket is the decayed strain of `p`,
measured from the end boundary of the last closed bucket. -/
theorem closeBuckets_some_strain (fpow : ℚ → ℚ → ℚ) (mt : Fin 2) (p : HitObject)
    (step : ℚ) :
    ∀ (n : ℕ) (ss : List ℚ) (ms ie : ℚ),
      (closeBuckets fpow mt (some p) step (n + 1) ss ms ie).2.1
        = p.strains mt * (fpow (DECAY_BASE mt) ((ie + (n : ℚ) * step) - p.starttime) / 1000) := by
  intro n
  induction n with
  | zero =>
    intro ss ms ie
    simp [closeBuckets]
  | succ k ih =>
    intro ss ms ie
    have step1 : (closeBuckets fpow mt (some p) step (k + 1 + 1) ss ms ie)
        = closeBuckets fpow mt (some p) step (k + 1) (ss ++ [ms])
            (p.strains mt * (fpow (DECAY_BASE mt) (ie - p.starttime) / 1000)) (ie + step) := rfl
    rw [step1, ih]
    have harg : (ie + step + (k : ℚ) * step) - p.starttime
        = (ie + ((k : ℚ) + 1) * step) - p.starttime := by ring
    rw [harg]
    push_cast
    ring_nf

/-- With no previous object (`i == 0`), every reopened bucket starts at 0. -/
theorem closeBuckets_none_strain (fpow : ℚ → ℚ → ℚ) (mt : Fin 2) (step : ℚ) :
    ∀ (n : ℕ) (ss : List ℚ) (ms ie : ℚ),
      (closeBuckets fpow mt none step (n + 1) ss ms ie).2.1 = 0 := by
  intro n
  induction n with
  | zero => intro ss ms ie; simp [closeBuckets]
  | succ k ih => intro ss ms ie; exact ih (ss ++ [ms]) 0 (ie + step)

/-- C1 (confirmed): in the strain walk, whenever buckets are closed with a
prior object present, the newly opened bucket's starting strain is the prior
object's strain contribution times `DECAY_BASE[dim] ** elapsed_ms / 1000`
(exponentiation first, then division by 1000), where `elapsed_ms` is the
closed bucket's end boundary minus the prior object's start time — here the
last of `n + 1` closed buckets has end boundary `ie + n * step`.  With no
prior object (`i == 0`) the new bucket starts at 0.  `DECAY_BASE` is 0.3 at
index 0 (the speed dimension, cf. `calculate_strains 0` in `get_strains`) and
0.15 at index 1 (aim). -/
theorem strain_decay_c1 (fpow : ℚ → ℚ → ℚ) (mt : Fin 2) (p : HitObject)
    (step : ℚ) (n : ℕ) (ss : List ℚ) (ms ie : ℚ) :
    (closeBuckets fpow mt (some p) step (n + 1) ss ms ie).2.1
      = p.strains mt * (fpow (DECAY_BASE mt) ((ie + (n : ℚ) * step) - p.starttime) / 1000)
    ∧ (closeBuckets fpow mt none step (n + 1) ss ms ie).2.1 = 0
    ∧ DECAY_BASE 0 = 3 / 10 ∧ DECAY_BASE 1 = 3 / 20 :=
  ⟨closeBuckets_some_strain fpow mt p step n ss ms ie,
   closeBuckets_none_strain fpow mt step n ss ms ie,
   by norm_num [DECAY_BASE], by norm_num [DECAY_BASE]⟩

/-- C2 (code_bug evidence): on the two-object map {t=0 strains (0,0),
t=500 strains (1,1)} with no mods (sqrt modelled as the identity, so the
combined sequence is [0, 0, 1.349865] and the bucket offset is −400), the
code reports `max_strain_time = 1.349865 * 400 − 400 = 139.946` — the peak
strain VALUE times the unscaled base step plus the offset — whereas the
claimed `argmax * bucketWidth + offset` is `2 * 400 − 400 = 400`. -/
theorem get_strains_peak_time_c2 :
    (get_strains onePow idSqrt ⟨0, 0, 0⟩ [⟨0, ![0, 0]⟩, ⟨500, ![1, 1]⟩] [] "").max_strain_time
        = 69973 / 500
    ∧ ((69973 : ℚ) / 500) ≠
        2 * (STRAIN_STEP * speed_multiplier []) +
          ((⌊(0 : ℚ) / (STRAIN_STEP * speed_multiplier [])⌋ : ℤ)
              * (STRAIN_STEP * speed_multiplier [])
            - STRAIN_STEP * speed_multiplier []) := by
  have hc : ((⌈(5 : ℚ) / 4⌉ : ℤ)).toNat = 0 + 1 + 1 := by
    have h2 : (⌈(5 : ℚ) / 4⌉ : ℤ) = 2 := by
      rw [Int.ceil_eq_iff]
      constructor <;> norm_num
    rw [h2]
    rfl
  constructor
  · simp only [get_strains, calculate_strains, strainLoop, speed_multiplier]
    norm_num [iterCount, hc, closeBuckets, idSqrt, onePow, STAR_SCALING_FACTOR,
      EXTREME_SCALING_FACTOR, DECAY_BASE, STRAIN_STEP]
    simp only [String.reduceEq, reduceIte]
    norm_num [peakFold, STRAIN_STEP]
  · simp only [speed_multiplier, STRAIN_STEP]
    norm_num

/-- C3 counterexample: on a one-object map the combined sequence is `[0]`
(so its maximum is 0), but with the external collaborator reporting
`stars.total = 999` the engine's "total" is 999 — the claim
`total = max(combined)` is false at this input. -/
theorem get_strains_total_c3_cex :
    (get_strains onePow idSqrt ⟨0, 0, 999⟩ [⟨0, ![0, 0]⟩] [] "").strains = [0]
    ∧ (get_strains onePow idSqrt ⟨0, 0, 999⟩ [⟨0, ![0, 0]⟩] [] "").total
        ≠ ((get_strains onePow idSqrt ⟨0, 0, 999⟩ [⟨0, ![0, 0]⟩] [] "").strains).foldr max 0 := by
  have hstr : (get_strains onePow idSqrt ⟨0, 0, 999⟩ [⟨0, ![0, 0]⟩] [] "").strains = [0] := by
    simp only [get_strains, calculate_strains, strainLoop, speed_multiplier]
    norm_num [iterCount, closeBuckets, idSqrt, onePow, STAR_SCALING_FACTOR,
      EXTREME_SCALING_FACTOR, DECAY_BASE, STRAIN_STEP]
  refine ⟨hstr, ?_⟩
  rw [hstr]
  have htot : (get_strains onePow idSqrt ⟨0, 0, 999⟩ [⟨0, ![0, 0]⟩] [] "").total = 999 := by
    simp only [get_strains]
    simp only [String.reduceEq, reduceIte]
  rw [htot]
  norm_num

/-- C4 (code_bug evidence): at raw OD 5 the clamped window is 49.5 ms for
both NC and DT (neither changes `od_multiplier`).  `CalculateMods.od` leaves
the window undivided for `["NC"]` even though `speed_multiplier(["NC"])` is
1.5, while for `["DT"]` it does divide by 1.5 — contradicting the claim that
NC behaves exactly as DT. -/
theorem od_nc_c4 :
    (CalculateMods_od ["NC"] 5).2 = 99 / 2
    ∧ speed_multiplier ["NC"] = 3 / 2
    ∧ (CalculateMods_od ["NC"] 5).2 ≠ ((99 : ℚ) / 2) / speed_multiplier ["NC"]
    ∧ (CalculateMods_od ["DT"] 5).2 = ((99 : ℚ) / 2) / speed_multiplier ["DT"] := by
  have hceil : (⌈OD_MS_STEP * ((5 : ℚ) * 1)⌉ : ℤ) = 30 := by
    rw [Int.ceil_eq_iff]
    constructor <;> norm_num [OD_MS_STEP]
  have hceil30 : (⌈(30 : ℚ)⌉ : ℤ) = 30 := by
    rw [Int.ceil_eq_iff]
    constructor <;> norm_num
  refine ⟨?_, ?_, ?_, ?_⟩ <;>
    simp only [CalculateMods_od, speed_multiplier] <;>
    norm_num [hceil, OD_MS_STEP, OD0_MS, OD10_MS, DT_SPD, HT_SPD, HR_OD, EZ_OD] <;>
    simp only [String.reduceEq, reduceIte] <;>
    norm_num [hceil30]

/-- C5 counterexample: for the play with 40×300, 5×100, 2×50, 3 misses the
full-combo `getPP` call receives `n300 = 43` and `n50 = 2`, not the claimed
`n300 = count300 + countmiss + count50 = 45` with `n50 = 0`. -/
theorem stat_play_fc_c5_cex :
    ¬ ((stat_play_pp_fc_args p5).n300 = some (p5.count300 + p5.countmiss + p5.count50)
        ∧ (stat_play_pp_fc_args p5).n50 = some 0) := by
  decide

/-- C5 (amended): the hypothetical full-combo `getPP` call folds only the
misses into the 300 count (`n300 = count300 + countmiss`); the 100 and 50
counts are passed through unchanged, and `combo`/`misses` are omitted so the
collaborator's full-combo defaults apply.  The total judged object count is
preserved. -/
theorem stat_play_fc_c5 (p : PlayData) :
    (stat_play_pp_fc_args p).n300 = some (p.count300 + p.countmiss)
    ∧ (stat_play_pp_fc_args p).n100 = some p.count100
    ∧ (stat_play_pp_fc_args p).n50 = some p.count50
    ∧ (stat_play_pp_fc_args p).combo = none
    ∧ (stat_play_pp_fc_args p).misses = none
    ∧ (p.count300 + p.countmiss) + p.count100 + p.count50
        = p.count300 + p.count100 + p.count50 + p.countmiss :=
  ⟨rfl, rfl, rfl, rfl, rfl, by omega⟩

/-- C7 counterexample: calling `sanitize_mods` on the list `["NC", "DT"]`
leaves the caller's list holding `["NC"]` — the argument does NOT equal its
pre-call contents, because the source mutates it in place with
`mods.remove("DT")`. -/
theorem sanitize_mods_c7_cex :
    (sanitize_mods ["NC", "DT"]).2 ≠ ["NC", "DT"]
    ∧ (sanitize_mods ["NC", "DT"]).1 = ["NC"] := by
  constructor
  · decide
  · decide

/-- C6 (confirmed): over the rank alphabet the osu! API produces (the letters
enumerated in `get_rank_emoji`), completion is 1 for every non-failing rank
and (judged hits)/(total hit objects) for the failing rank "F"; in particular
rank "F" with counts 40/5/2/3 on a 60-object map gives 50/60. -/
theorem stat_play_completion_c6 (rank : String) (c300 c100 c50 cmiss n : ℕ)
    (hrank : rank ∈ RANKS) :
    (rank ≠ "F" → stat_play_completion rank c300 c100 c50 cmiss n = 1)
    ∧ (rank = "F" → stat_play_completion rank c300 c100 c50 cmiss n
        = ((c300 + c100 + c50 + cmiss : ℕ) : ℚ) / (n : ℚ))
    ∧ stat_play_completion "F" 40 5 2 3 60 = 50 / 60 := by
  refine ⟨?_, ?_, ?_⟩
  · intro hne
    fin_cases hrank <;>
      first
        | exact absurd rfl hne
        | (unfold stat_play_completion; rw [if_neg (by decide)])
  · intro he
    subst he
    unfold stat_play_completion
    rw [if_pos (by decide)]
  · unfold stat_play_completion
    rw [if_pos (by decide)]
    norm_num

/-- Witness for C6 at rank "A". -/
theorem stat_play_completion_c6_witness :
    stat_play_completion "A" 40 5 2 3 60 = 1
    ∧ stat_play_completion "F" 40 5 2 3 60 = 50 / 60 := by
  have h := stat_play_completion_c6 "A" 40 5 2 3 60 (by decide)
  exact ⟨h.1 (by decide), h.2.2⟩

/-- Core of C10: the resolved 1-based index, for a generic clamp bound. -/
theorem resolved_bounds (bound index : ℤ) (len : ℕ) (hb : 1 ≤ bound) (hlen : 0 < len) :
    (1 ≤ (if (len : ℤ) < min (max index 1) bound then (len : ℤ)
            else min (max index 1) bound).toNat
      ∧ (if (len : ℤ) < min (max index 1) bound then (len : ℤ)
            else min (max index 1) bound).toNat ≤ len)
    ∧ (index ≤ 0 →
        (if (len : ℤ) < min (max index 1) bound then (len : ℤ)
            else min (max index 1) bound).toNat = 1)
    ∧ ((len : ℤ) ≤ bound → (len : ℤ) ≤ index →
        (if (len : ℤ) < min (max index 1) bound then (len : ℤ)
            else min (max index 1) bound).toNat = len) := by
  refine ⟨⟨?_, ?_⟩, ?_, ?_⟩ <;> split_ifs <;> omega

/-- C10 (confirmed): for every integer index and non-empty fetched list, both
`get_top` and `get_recent` read a valid 1-based position: the index is
clamped to [1, 100] (resp. [1, 50]) and then reduced to the list length when
the list is shorter, so the element access always succeeds; non-positive
indices resolve to the first play and too-large indices (for fetched lists,
whose length cannot exceed the fetch limit) to the last. -/
theorem get_top_recent_c10 {α : Type} (index : ℤ) (plays : List α) (h : plays ≠ []) :
    (1 ≤ get_top_resolved index plays.length
      ∧ get_top_resolved index plays.length ≤ plays.length
      ∧ (get_top_select index plays).isSome = true
      ∧ (index ≤ 0 → get_top_resolved index plays.length = 1)
      ∧ ((plays.length : ℤ) ≤ 100 → (plays.length : ℤ) ≤ index →
          get_top_resolved index plays.length = plays.length))
    ∧ (1 ≤ get_recent_resolved index plays.length
      ∧ get_recent_resolved index plays.length ≤ plays.length
      ∧ (get_recent_select index plays).isSome = true
      ∧ (index ≤ 0 → get_recent_resolved index plays.length = 1)
      ∧ ((plays.length : ℤ) ≤ 50 → (plays.length : ℤ) ≤ index →
          get_recent_resolved index plays.length = plays.length)) := by
  have hlen : 0 < plays.length := List.length_pos.mpr h
  have htop := resolved_bounds 100 index plays.length (by norm_num) hlen
  have hrec := resolved_bounds 50 index plays.length (by norm_num) hlen
  have htopr : get_top_resolved index plays.length
      = (if (plays.length : ℤ) < min (max index 1) 100 then (plays.length : ℤ)
          else min (max index 1) 100).toNat := rfl
  have hrecr : get_recent_resolved index plays.length
      = (if (plays.length : ℤ) < min (max index 1) 50 then (plays.length : ℤ)
          else min (max index 1) 50).toNat := rfl
  refine ⟨⟨?_, ?_, ?_, ?_, ?_⟩, ⟨?_, ?_, ?_, ?_, ?_⟩⟩
  · rw [htopr]; exact htop.1.1
  · rw [htopr]; exact htop.1.2
  · have hlt : get_top_resolved index plays.length - 1 < plays.length := by
      have h1 := htop.1.1
      have h2 := htop.1.2
      rw [htopr] at *
      omega
    unfold get_top_select
    rw [List.get?_eq_get hlt]
    rfl
  · intro hi; rw [htopr]; exact htop.2.1 hi
  · intro hl hi; rw [htopr]; exact htop.2.2 hl hi
  · rw [hrecr]; exact hrec.1.1
  · rw [hrecr]; exact hrec.1.2
  · have hlt : get_recent_resolved index plays.length - 1 < plays.length := by
      have h1 := hrec.1.1
      have h2 := hrec.1.2
      rw [hrecr] at *
      omega
    unfold get_recent_select
    rw [List.get?_eq_get hlt]
    rfl
  · intro hi; rw [hrecr]; exact hrec.2.1 hi
  · intro hl hi; rw [hrecr]; exact hrec.2.2 hl hi

/-- Witness for C10 on the two-element list `[3, 7]` at index 0. -/
theorem get_top_recent_c10_witness :
    (get_top_select 0 ([3, 7] : List ℕ)).isSome = true
    ∧ get_top_resolved 0 2 = 1 := by
  have h := get_top_recent_c10 0 ([3, 7] : List ℕ) (by decide)
  exact ⟨h.1.2.2.1, h.1.2.2.2.1 (by decide)⟩

/-- The first component of the peak-search fold is a running maximum. -/
theorem peakFold_aux (off : ℚ) :
    ∀ (l : List ℚ) (p : ℚ × ℚ),
      (l.foldl (fun acc i => if i > acc.1 then (i, i * STRAIN_STEP + off) else acc) p).1
        = l.foldl max p.1 := by
  intro l
  induction l with
  | nil => intro p; rfl
  | cons b t ih =>
    intro p
    simp only [List.foldl_cons]
    by_cases hb : b > p.1
    · rw [if_pos hb, ih]
      congr 1
      exact (max_eq_right (le_of_lt hb)).symm
    · rw [if_neg hb, ih]
      congr 1
      exact (max_eq_left (not_lt.mp hb)).symm

/-- `max_strain` as computed by `peakFold` is `foldl max 0`. -/
theorem peakFold_fst (l : List ℚ) (off : ℚ) : (peakFold l off).1 = l.foldl max 0 :=
  peakFold_aux off l (0, off)

/-- A max-fold dominates its initial value. -/
theorem foldl_max_init_le : ∀ (l : List ℚ) (a : ℚ), a ≤ l.foldl max a := by
  intro l
  induction l with
  | nil => intro a; exact le_refl a
  | cons b t ih => intro a; exact le_trans (le_max_left a b) (ih (max a b))

/-- A max-fold dominates every list element. -/
theorem foldl_max_le_of_mem :
    ∀ (l : List ℚ) (a x : ℚ), x ∈ l → x ≤ l.foldl max a := by
  intro l
  induction l with
  | nil => intro a x hx; cases hx
  | cons b t ih =>
    intro a x hx
    rcases List.mem_cons.mp hx with hxb | hxt
    · subst hxb
      exact le_trans (le_max_right a x) (foldl_max_init_le t (max a x))
    · exact ih (max a b) x hxt

/-- A max-fold returns its initial value or a list element. -/
theorem foldl_max_mem :
    ∀ (l : List ℚ) (a : ℚ), l.foldl max a = a ∨ l.foldl max a ∈ l := by
  intro l
  induction l with
  | nil => intro a; exact Or.inl rfl
  | cons b t ih =>
    intro a
    rcases ih (max a b) with h | h
    · rcases le_total b a with hba | hab
      · exact Or.inl (by rw [List.foldl_cons, h, max_eq_left hba])
      · exact Or.inr (by rw [List.foldl_cons, h, max_eq_right hab]; exact List.mem_cons_self b t)
    · exact Or.inr (List.mem_cons_of_mem b h)

/-- The per-dimension strain sequence of a non-empty map is non-empty. -/
theorem calculate_strains_ne_nil (fpow : ℚ → ℚ → ℚ) (fsqrt : ℚ → ℚ) (mt : Fin 2)
    (h0 : HitObject) (rest : List HitObject) (sp : ℚ) :
    calculate_strains fpow fsqrt mt (h0 :: rest) sp ≠ [] := by
  simp only [calculate_strains]
  simp

/-- C3 (amended): in the default mode the reported "total" is the star
rating the external collaborator supplied (`stars.total`), passed through
unchanged; the maximum of the combined sequence is reported as `max_strain`
instead (given, as holds for the real `sqrt`-rescaled values, that the
combined entries are non-negative). -/
theorem get_strains_total_c3 (fpow : ℚ → ℚ → ℚ) (fsqrt : ℚ → ℚ) (stars : OppaStats)
    (h0 : HitObject) (rest : List HitObject) (mods : List String)
    (hpos : ∀ x ∈ (get_strains fpow fsqrt stars (h0 :: rest) mods "").strains, 0 ≤ x) :
    (get_strains fpow fsqrt stars (h0 :: rest) mods "").total = stars.total
    ∧ (get_strains fpow fsqrt stars (h0 :: rest) mods "").max_strain
        ∈ (get_strains fpow fsqrt stars (h0 :: rest) mods "").strains
    ∧ ∀ x ∈ (get_strains fpow fsqrt stars (h0 :: rest) mods "").strains,
        x ≤ (get_strains fpow fsqrt stars (h0 :: rest) mods "").max_strain := by
  have hms : (get_strains fpow fsqrt stars (h0 :: rest) mods "").max_strain
      = ((get_strains fpow fsqrt stars (h0 :: rest) mods "").strains).foldl max 0 := by
    simp only [get_strains]
    simp only [String.reduceEq, reduceIte]
    exact peakFold_fst _ _
  have hne : (get_strains fpow fsqrt stars (h0 :: rest) mods "").strains ≠ [] := by
    simp only [get_strains]
    simp only [String.reduceEq, reduceIte]
    rw [Ne, List.zipWith_eq_nil_iff]
    push_neg
    exact ⟨calculate_strains_ne_nil fpow fsqrt 1 h0 rest _,
      calculate_strains_ne_nil fpow fsqrt 0 h0 rest _⟩
  refine ⟨?_, ?_, ?_⟩
  · simp only [get_strains]
    simp only [String.reduceEq, reduceIte]
  · rw [hms]
    rcases foldl_max_mem ((get_strains fpow fsqrt stars (h0 :: rest) mods "").strains) 0
      with h | h
    · rw [h]
      obtain ⟨y, hy⟩ := List.exists_mem_of_ne_nil _ hne
      have hy0 : y ≤ 0 := by
        have := foldl_max_le_of_mem _ 0 y hy
        rwa [h] at this
      have h0y : 0 ≤ y := hpos y hy
      have : y = 0 := le_antisymm hy0 h0y
      rwa [← this]
    · exact h
  · intro x hx
    rw [hms]
    exact foldl_max_le_of_mem _ 0 x hx

/-- Witness for C3 on a concrete one-object map with `stars.total = 3`. -/
theorem get_strains_total_c3_witness :
    (get_strains onePow idSqrt ⟨1, 2, 3⟩ [⟨0, ![0, 0]⟩] [] "").total = 3
    ∧ (get_strains onePow idSqrt ⟨1, 2, 3⟩ [⟨0, ![0, 0]⟩] [] "").max_strain
        ∈ (get_strains onePow idSqrt ⟨1, 2, 3⟩ [⟨0, ![0, 0]⟩] [] "").strains := by
  have hstr : (get_strains onePow idSqrt ⟨1, 2, 3⟩ [⟨0, ![0, 0]⟩] [] "").strains = [0] := by
    simp only [get_strains, calculate_strains, strainLoop, speed_multiplier]
    norm_num [iterCount, closeBuckets, idSqrt, onePow, STAR_SCALING_FACTOR,
      EXTREME_SCALING_FACTOR, DECAY_BASE, STRAIN_STEP]
  have h := get_strains_total_c3 onePow idSqrt ⟨1, 2, 3⟩ ⟨0, ![0, 0]⟩ [] []
    (by rw [hstr]; intro x hx; rw [List.mem_singleton] at hx; rw [hx])
  exact ⟨h.1, h.2.1⟩

/-- C7 (amended): `sanitize_mods` collapses NC+DT to NC and PF+SD to PF, but
it does so by mutating its argument in place: after the call the argument
holds exactly the collapsed set (the returned object), not its original
contents. -/
theorem sanitize_mods_c7 (mods : List String) (h : mods.Nodup) :
    (sanitize_mods mods).2 = (sanitize_mods mods).1
    ∧ ∀ x, (x ∈ (sanitize_mods mods).1 ↔
        x ∈ mods ∧ ¬("NC" ∈ mods ∧ "DT" ∈ mods ∧ x = "DT")
          ∧ ¬("PF" ∈ mods ∧ "SD" ∈ mods ∧ x = "SD")) := by
  refine ⟨rfl, ?_⟩
  intro x
  simp only [sanitize_mods]
  by_cases h1 : "NC" ∈ mods ∧ "DT" ∈ mods
  · rw [if_pos h1]
    have hnd : (mods.erase "DT").Nodup := h.erase _
    by_cases h2 : "PF" ∈ mods.erase "DT" ∧ "SD" ∈ mods.erase "DT"
    · rw [if_pos h2]
      have hpf : "PF" ∈ mods := ((List.Nodup.mem_erase_iff h).mp h2.1).2
      have hsd : "SD" ∈ mods := ((List.Nodup.mem_erase_iff h).mp h2.2).2
      rw [List.Nodup.mem_erase_iff hnd, List.Nodup.mem_erase_iff h]
      constructor
      · rintro ⟨hxsd, hxdt, hxm⟩
        exact ⟨hxm, fun hc => hxdt hc.2.2, fun hc => hxsd hc.2.2⟩
      · rintro ⟨hxm, hdt, hsd2⟩
        exact ⟨fun he => hsd2 ⟨hpf, hsd, he⟩, fun he => hdt ⟨h1.1, h1.2, he⟩, hxm⟩
    · rw [if_neg h2]
      have hponly : ¬("PF" ∈ mods ∧ "SD" ∈ mods) := by
        intro hc
        exact h2 ⟨(List.Nodup.mem_erase_iff h).mpr ⟨by decide, hc.1⟩,
          (List.Nodup.mem_erase_iff h).mpr ⟨by decide, hc.2⟩⟩
      rw [List.Nodup.mem_erase_iff h]
      constructor
      · rintro ⟨hxdt, hxm⟩
        exact ⟨hxm, fun hc => hxdt hc.2.2, fun hc => hponly ⟨hc.1, hc.2.1⟩⟩
      · rintro ⟨hxm, hdt, _⟩
        exact ⟨fun he => hdt ⟨h1.1, h1.2, he⟩, hxm⟩
  · rw [if_neg h1]
    by_cases h2 : "PF" ∈ mods ∧ "SD" ∈ mods
    · rw [if_pos h2]
      rw [List.Nodup.mem_erase_iff h]
      constructor
      · rintro ⟨hxsd, hxm⟩
        exact ⟨hxm, fun hc => h1 ⟨hc.1, hc.2.1⟩, fun hc => hxsd hc.2.2⟩
      · rintro ⟨hxm, _, hsd2⟩
        exact ⟨fun he => hsd2 ⟨h2.1, h2.2, he⟩, hxm⟩
    · rw [if_neg h2]
      constructor
      · intro hxm
        exact ⟨hxm, fun hc => h1 ⟨hc.1, hc.2.1⟩, fun hc => h2 ⟨hc.1, hc.2.1⟩⟩
      · rintro ⟨hxm, _, _⟩
        exact hxm

/-- Witness for C7 on the mod set `["NC", "DT"]`. -/
theorem sanitize_mods_c7_witness :
    (sanitize_mods ["NC", "DT"]).2 = (sanitize_mods ["NC", "DT"]).1
    ∧ ("DT" ∈ (sanitize_mods ["NC", "DT"]).1 ↔
        "DT" ∈ (["NC", "DT"] : List String)
          ∧ ¬("NC" ∈ (["NC", "DT"] : List String) ∧ "DT" ∈ (["NC", "DT"] : List String)
              ∧ "DT" = "DT")
          ∧ ¬("PF" ∈ (["NC", "DT"] : List String) ∧ "SD" ∈ (["NC", "DT"] : List String)
              ∧ "DT" = "SD")) := by
  have h := sanitize_mods_c7 ["NC", "DT"] (by decide)
  exact ⟨h.1, h.2 "DT"⟩

/-- Soundness of the regex tokenizer: a successful match decomposes the input
into registry codes. -/
theorem tokenizeFuel_sound :
    ∀ (fuel : ℕ) (cs : List Char) (toks : List String),
      tokenizeFuel fuel cs = some toks →
      cs = (toks.map String.toList).flatten ∧ ∀ t ∈ toks, t ∈ MODS.map Prod.fst := by
  intro fuel
  induction fuel with
  | zero =>
    intro cs toks h
    cases cs with
    | nil =>
      simp only [tokenizeFuel, Option.some.injEq] at h
      subst h
      simp
    | cons c rest => simp [tokenizeFuel] at h
  | succ f ih =>
    intro cs toks h
    cases cs with
    | nil =>
      simp only [tokenizeFuel, Option.some.injEq] at h
      subst h
      simp
    | cons c rest =>
      simp only [tokenizeFuel] at h
      obtain ⟨code, hcode_mem, hcode⟩ := List.exists_of_findSome?_eq_some h
      by_cases hpre : code.toList.isPrefixOf (c :: rest)
      · rw [if_pos hpre] at hcode
        obtain ⟨ts, hts, htoks⟩ := Option.map_eq_some'.mp hcode
        obtain ⟨hjoin, hmem⟩ := ih _ _ hts
        subst htoks
        constructor
        · have hpre2 : code.toList <+: (c :: rest) := List.isPrefixOf_iff_prefix.mp hpre
          have happ := List.prefix_iff_eq_append.mp hpre2
          rw [List.map_cons, List.flatten_cons, ← hjoin]
          exact happ.symm
        · intro t ht
          rcases List.mem_cons.mp ht with h | h
          · subst h; exact hcode_mem
          · exact hmem t h
      · rw [if_neg hpre] at hcode
        exact absurd hcode (by simp)

/-- C8 (confirmed): parsing a modifier display string is total and, whenever
the `"+"`-stripped upper-cased input is not a concatenation of registry codes
(the empty and `"nomod"` inputs aside, which yield the empty set without a
warning), it returns the empty mod list together with a logged warning rather
than failing. -/
theorem parse_mods_string_c8 (s : String)
    (h1 : s ≠ "") (h2 : s ≠ "nomod")
    (h3 : ¬ ∃ toks : List String, toks ≠ [] ∧ (∀ t ∈ toks, t ∈ MODS.map Prod.fst) ∧
        (strip_plus_upper s).toList = (toks.map String.toList).flatten) :
    parse_mods_string s = ([], true)
    ∧ parse_mods_string "" = ([], false)
    ∧ parse_mods_string "nomod" = ([], false) := by
  refine ⟨?_, by decide, by decide⟩
  simp only [parse_mods_string]
  rw [if_neg (by simp [h1, h2])]
  have hm : MODS_RE_match (strip_plus_upper s) = none := by
    unfold MODS_RE_match
    by_cases he : (strip_plus_upper s).toList = []
    · rw [if_pos he]
    · rw [if_neg he]
      cases htk : tokenizeFuel (strip_plus_upper s).toList.length (strip_plus_upper s).toList with
      | none => rfl
      | some toks =>
        exfalso
        obtain ⟨hjoin, hmem⟩ := tokenizeFuel_sound _ _ _ htk
        apply h3
        refine ⟨toks, ?_, hmem, hjoin⟩
        rintro rfl
        exact he (by simpa using hjoin)
  rw [hm]

/-- Witness for C8 on the invalid string `"Q"` (shorter than every registry
code, hence no decomposition exists). -/
theorem parse_mods_string_c8_witness : parse_mods_string "Q" = ([], true) := by
  have hlen : ∀ t ∈ MODS.map Prod.fst, 2 ≤ t.toList.length := by decide
  have h3 : ¬ ∃ toks : List String, toks ≠ [] ∧ (∀ t ∈ toks, t ∈ MODS.map Prod.fst) ∧
      (strip_plus_upper "Q").toList = (toks.map String.toList).flatten := by
    rintro ⟨toks, hne, hmem, hjoin⟩
    have hq : (strip_plus_upper "Q").toList = ['Q'] := by decide
    rw [hq] at hjoin
    cases toks with
    | nil => exact hne rfl
    | cons t ts =>
      have hlt : 2 ≤ t.toList.length := hlen t (hmem t (List.mem_cons_self t ts))
      rw [List.map_cons, List.flatten_cons] at hjoin
      have hcongr := congrArg List.length hjoin
      simp only [List.length_append, List.length_cons, List.length_nil] at hcongr
      omega
  exact (parse_mods_string_c8 "Q" (by decide) (by decide) h3).1

/-- The canonical set `mod_int` sums over has no duplicates. -/
theorem modIntList_nodup (L : List String) : (modIntList L).Nodup := by
  simp only [modIntList]
  by_cases h : "NC" ∈ L.dedup
  · rw [if_pos h]
    exact List.Nodup.filter _ ((L.nodup_dedup).insert)
  · rw [if_neg h]
    exact List.Nodup.filter _ (L.nodup_dedup)

/-- Every member of the canonical set is an allow-list mod. -/
theorem modIntList_subset (L : List String) : ∀ x ∈ modIntList L, x ∈ DIFF_MODS := by
  intro x hx
  simp only [modIntList] at hx
  exact of_decide_eq_true (List.mem_filter.mp hx).2

/-- The canonical set is NC→DT closed. -/
theorem modIntList_closure (L : List String) :
    "NC" ∈ modIntList L → "DT" ∈ modIntList L := by
  intro h
  simp only [modIntList] at h ⊢
  by_cases hnc : "NC" ∈ L.dedup
  · rw [if_pos hnc] at h ⊢
    exact List.mem_filter.mpr ⟨List.mem_insert_self _ _, by decide⟩
  · rw [if_neg hnc] at h ⊢
    exact absurd (List.mem_of_mem_filter h) hnc

/-- `mod_int` rewritten as a sum over the fixed `DIFF_MODS` order (the Python
sum iterates a set, so any order with the same membership gives the same
bitmask). -/
theorem mod_int_eq_canonical (L : List String) :
    mod_int L = ((DIFF_MODS.filter (fun c => decide (c ∈ modIntList L))).map modValue).sum := by
  unfold mod_int
  have hperm : List.Perm (modIntList L)
      (DIFF_MODS.filter (fun c => decide (c ∈ modIntList L))) := by
    apply (List.perm_ext_iff_of_nodup (modIntList_nodup L)
      (List.Nodup.filter _ (by decide))).mpr
    intro a
    simp only [List.mem_filter, decide_eq_true_eq]
    constructor
    · intro ha
      exact ⟨modIntList_subset L a ha, ha⟩
    · rintro ⟨_, ha⟩
      exact ha
  exact (hperm.map modValue).sum_eq

/-- Round-trip over each NC→DT-closed subset of the allow-list. -/
theorem roundtrip_fin :
    ∀ G ∈ DIFF_MODS.sublists, ("NC" ∈ G → "DT" ∈ G) →
      mod_int (parse_mods_int ((G.map modValue).sum)) = (G.map modValue).sum := by
  decide

/-- Decoding the bitmask of any mod list and re-encoding it is the identity
on bitmasks. -/
theorem roundtrip_general (L : List String) :
    mod_int (parse_mods_int (mod_int L)) = mod_int L := by
  rw [mod_int_eq_canonical L]
  refine roundtrip_fin _ (List.mem_sublists.mpr (List.filter_sublist _)) ?_
  intro h
  simp only [List.mem_filter, decide_eq_true_eq] at h ⊢
  exact ⟨by decide, modIntList_closure L h.2⟩

/-- C9 (confirmed): for every display string made of allow-list registry
codes, `toBitmask(parse(toBitmask(parse(s))))` equals `toBitmask(parse(s))` —
the encode/decode round trip is idempotent (it in fact holds for the parse of
any string). -/
theorem mod_roundtrip_c9 (s : String)
    (hs : ∃ toks : List String, toks ≠ [] ∧ (∀ t ∈ toks, t ∈ DIFF_MODS) ∧
        (strip_plus_upper s).toList = (toks.map String.toList).flatten) :
    mod_int (parse_mods_int (mod_int (parse_mods_string s).1))
      = mod_int (parse_mods_string s).1 :=
  roundtrip_general (parse_mods_string s).1

/-- Witness for C9 on the allow-list string `"HDDT"`. -/
theorem mod_roundtrip_c9_witness :
    mod_int (parse_mods_int (mod_int (parse_mods_string "HDDT").1))
      = mod_int (parse_mods_string "HDDT").1 :=
  mod_roundtrip_c9 "HDDT" ⟨["HD", "DT"], by decide, by decide, by decide⟩

end Flowabot
